import Mathlib

/-!
Verification of the Video2Text orchestration core against its specification.

This file gives a shallow embedding, in Lean 4, of the parts of the program
that the specification's claims talk about:

* `src/core/file_manager.py` — discovery (`scan_videos`), the processing
  ledger (`processing history`: `is_processed`, `mark_processed`,
  `load_processing_history`), output-path computation (`get_output_path`),
  and the path-plus-mtime hash (`get_file_hash`, `get_temp_audio_path`);
* `src/core/transcriber.py` — `transcribe` (engine-failure handling),
  `save_result`/`save_txt` (serialisation, modelled as a trace of
  filesystem operations), and the three timestamp formatters;
* `src/mp4_to_text.py` — the per-file pipeline `process_single_file`, the
  sequential batch driver, and (for the concurrency claim) a small-step
  interleaving model of `mark_processed` at the granularity at which the
  CPython interpreter can switch threads.

Conventions of the embedding:

* filesystem paths are lists of components (`PathParts`); rendering such a
  path as the string of an absolute path is `pathStr`;
* Python floats that hold durations, times and sizes are modelled as `ℚ`;
* Python dicts keyed by strings are association lists with the Python
  update semantics (replace in place, else append);
* fallible operations are modelled with `Except`/`Option`, and the ambient
  filesystem is an explicit argument.
-/

namespace Video2Text


/-- A filesystem path, as the list of its components (the result of
normalising the path; the leading root is implicit). -/

abbrev PathParts := List String

/-- Renders a `PathParts` as the string of an absolute POSIX path, the way
`str(path.absolute())` renders a `pathlib.Path`. -/

def pathStr (p : PathParts) : String :=
  "/" ++ String.intercalate ("/") p

/-- The last component of a path (`Path.name`); empty for the empty path. -/

def lastComponent (p : PathParts) : String :=
  match p.getLast? with
  | some s => s
  | none => ""

/-- ASCII lowercasing of a string, character by character, modelling
Python's `str.lower()` on the ASCII extension strings it is applied to. -/

def lowerStr (s : String) : String :=
  String.mk (s.data.map Char.toLower)

/-- Whitespace characters stripped by Python's `str.strip()` (the ASCII
ones; the source only ever strips transcription text). -/

def isSpaceChar (c : Char) : Bool :=
  c = ' ' || c = '\t' || c = '\n' || c = '\r' || c = '\x0b' || c = '\x0c'

/-- Python's `str.strip()`: drop leading and trailing whitespace. -/

def pyStrip (s : String) : String :=
  String.mk (((s.data.dropWhile isSpaceChar).reverse.dropWhile isSpaceChar).reverse)

/-- Python's `pathlib.PurePath.suffix` on a file name: the substring from
the last dot on, provided that dot is neither the first nor the last
character; otherwise the empty string. -/

def pySuffix (name : String) : String :=
  let cs := name.data
  match cs.reverse.findIdx? (fun c => c = '.') with
  | none => ""
  | some r =>
      let i := cs.length - 1 - r
      if 0 < i ∧ i < cs.length - 1 then String.mk (cs.drop i) else ""

/-- The suffix of a path's final component (`Path.suffix`). -/

def pathSuffix (p : PathParts) : String :=
  pySuffix (lastComponent p)

/-- Python's `PurePath.stem`: the final component without its suffix. -/

def pyStem (name : String) : String :=
  String.mk (name.data.take (name.data.length - (pySuffix name).data.length))

/-- `FileManager.supported_formats` (`src/core/file_manager.py`): the fixed
extension allow-list, already lower-case. -/

def supported_formats : List String :=
  [".mp4", ".avi", ".mov", ".mkv", ".flv", ".webm", ".m4v", ".wmv", ".3gp", ".ogv"]

/-- One directory entry produced by globbing the input root: a path and
whether it is a regular file (`Path.is_file()`). -/

structure FsEntry where
  parts : PathParts
  isFile : Bool
deriving DecidableEq, Repr

/-- The state of the input root that `scan_videos` observes: whether the
root exists, whether it is a directory, the root's own path (used in error
messages), and the entries its glob enumerates, in arbitrary filesystem
iteration order. -/

structure InputRoot where
  path : PathParts
  present : Bool
  isDir : Bool
  entries : List FsEntry
deriving DecidableEq, Repr

/-- The two errors `scan_videos` raises: `FileNotFoundError` and
`NotADirectoryError`, each carrying its message. -/

inductive ScanError where
  | notFound (msg : String)
  | notADirectory (msg : String)
deriving DecidableEq, Repr

/-- The comparison under which Python sorts `pathlib.Path` objects: the
lexicographic order on the tuple of path components (on POSIX, components
compare as plain strings).  Mathlib's linear order on `List String` is
exactly this lexicographic order. -/

def pathLe (a b : PathParts) : Bool :=
  decide (a ≤ b)

/-- Whether a directory entry passes the filter of `scan_videos`:
`file_path.is_file() and file_path.suffix.lower() in self.supported_formats`. -/

def isVideoEntry (e : FsEntry) : Bool :=
  e.isFile && supported_formats.contains (lowerStr (pathSuffix e.parts))

/-- `FileManager.scan_videos` (`src/core/file_manager.py`, lines 89-118):
raise `FileNotFoundError` when the input root is missing and
`NotADirectoryError` when it is not a directory; otherwise collect the
globbed entries that are files with an allow-listed extension
(case-insensitively) and return them sorted. -/

def scan_videos (root : InputRoot) : Except ScanError (List PathParts) :=
  if root.present = false then
    .error (.notFound ("Input directory does not exist: " ++ pathStr root.path))
  else if root.isDir = false then
    .error (.notADirectory ("Input path is not a directory: " ++ pathStr root.path))
  else
    .ok (List.mergeSort ((root.entries.filter isVideoEntry).map (fun e => e.parts)) pathLe)

/-- A concrete input root for the discovery witness: present, a directory,
holding two video files (enumerated out of order), a non-video file and a
subdirectory. -/

def sampleRoot : InputRoot :=
  { path := ["data", "in"]
    present := true
    isDir := true
    entries :=
      [ { parts := ["data", "in", "zeta.MP4"], isFile := true }
      , { parts := ["data", "in", "alpha.mkv"], isFile := true }
      , { parts := ["data", "in", "notes.txt"], isFile := true }
      , { parts := ["data", "in", "subdir"], isFile := false } ] }

/-- A concrete input root whose path is missing. -/

def missingRoot : InputRoot :=
  { path := ["gone"], present := false, isDir := false, entries := [] }

/-- One value of the `processed_files` mapping of the processing-history
ledger (`FileManager.mark_processed` writes exactly these fields). -/

structure LedgerEntry where
  processed_at : String
  output_file : String
  duration : ℚ
  processing_time : ℚ
  model_used : String
  success : Bool
  error : String
deriving DecidableEq, Repr

/-- The `statistics` section of the processing-history ledger. -/

structure Statistics where
  total_processed : ℕ
  successful : ℕ
  failed : ℕ
  total_duration : ℚ
  total_processing_time : ℚ
deriving DecidableEq, Repr

/-- The processing-history ledger (`.processing_history.json`): the
`processed_files` mapping (a Python dict keyed by strings, modelled as an
association list in insertion order) and the `statistics` aggregate. -/

structure History where
  processed_files : List (String × LedgerEntry)
  statistics : Statistics
deriving DecidableEq, Repr

/-- The fresh ledger `_load_processing_history` falls back to
(`src/core/file_manager.py`, lines 70-79). -/

def freshHistory : History :=
  { processed_files := []
    statistics :=
      { total_processed := 0, successful := 0, failed := 0
        total_duration := 0, total_processing_time := 0 } }

/-- What the persisted ledger file can look like when the `FileManager` is
constructed: absent, present but unreadable (`open` raises), present but
not parseable (`json.load` raises), or readable with a parsed history. -/

inductive LedgerFileState where
  | absent
  | unreadable (msg : String)
  | corrupt (msg : String)
  | valid (h : History)

/-- `FileManager._load_processing_history` (`src/core/file_manager.py`,
lines 61-79): return the parsed history when the file exists and loads;
on any exception print a warning and fall through; in every other case
return the fresh empty history.  The function itself raises nothing. -/

def load_processing_history : LedgerFileState → History
  | .absent => freshHistory
  | .unreadable _ => freshHistory
  | .corrupt _ => freshHistory
  | .valid h => h

/-- A video file as the pipeline sees it: its absolute path and its
modification time (`Path.stat().st_mtime`). -/

structure VideoFile where
  parts : PathParts
  mtime : ℚ
deriving DecidableEq, Repr

/-- The `FileManager` state the ledger claims need: the normalised input
and output directories and the in-memory processing history. -/

structure FileManager where
  input_dir : PathParts
  output_dir : PathParts
  history : History
deriving DecidableEq, Repr

/-- Update of a Python dict keyed by strings: replace the value in place
if the key is present, otherwise append the new binding at the end. -/

def updateAssoc : List (String × LedgerEntry) → String → LedgerEntry →
    List (String × LedgerEntry)
  | [], k, v => [(k, v)]
  | (k', v') :: rest, k, v =>
      if k' = k then (k, v) :: rest else (k', v') :: updateAssoc rest k v

/-- `FileManager.get_output_path` (`src/core/file_manager.py`, lines
120-145) with the default `.txt` extension: take the path relative to the
input directory (just the file name when the video is not under it),
replace the suffix with `.txt`, and join onto the output directory.  The
optional `pathvalidate` sanitisation is the import-missing branch (a
no-op). -/

def get_output_path (fm : FileManager) (video : PathParts) : PathParts :=
  let rel : PathParts :=
    if fm.input_dir.isPrefixOf video then video.drop fm.input_dir.length
    else [lastComponent video]
  let withTxt : PathParts := rel.dropLast ++ [pyStem (lastComponent rel) ++ ".txt"]
  fm.output_dir ++ withTxt

/-- `FileManager._get_file_hash` (`src/core/file_manager.py`, lines
163-171): the MD5 hex digest of `f"{path.absolute()}_{mtime}"`.  The
digest function itself is opaque to every claim, so the embedding takes
it as a parameter; what matters is the string that is hashed. -/

def get_file_hash (md5hex : String → String) (v : VideoFile) : String :=
  md5hex (pathStr v.parts ++ "_" ++ toString v.mtime)

/-- `FileManager.get_temp_audio_path` (`src/core/file_manager.py`, lines
147-161): `{stem}_{hash[:8]}.wav` under the `audio` temp directory — the
only consumer of `_get_file_hash`. -/

def get_temp_audio_path (md5hex : String → String) (temp_dir : PathParts)
    (v : VideoFile) : PathParts :=
  temp_dir ++ ["audio",
    pyStem (lastComponent v.parts) ++ "_"
      ++ String.mk ((get_file_hash md5hex v).data.take 8) ++ ".wav"]

/-- The files visible to the pipeline: a map from rendered absolute path
to the size (in bytes) of the file, when it exists. -/

abbrev FileSys := String → Option ℕ

/-- `FileManager.is_processed` (`src/core/file_manager.py`, lines
173-203): with `skip_existing` false, never skip; otherwise require the
recomputed output path to exist, then a `processed_files` entry under the
key `str(video_path.absolute())`, then its `success` flag, then the output
file to exist with size greater than zero. -/

def is_processed (fs : FileSys) (fm : FileManager) (v : VideoFile)
    (skip_existing : Bool) : Bool :=
  if !skip_existing then false
  else
    let output_path := pathStr (get_output_path fm v.parts)
    match fs output_path with
    | none => false
    | some _ =>
      match fm.history.processed_files.lookup (pathStr v.parts) with
      | none => false
      | some info =>
          if info.success then
            match fs output_path with
            | some sz => decide (0 < sz)
            | none => false
          else false

/-- `FileManager.mark_processed` (`src/core/file_manager.py`, lines
205-246): store the entry under the key `str(video_path.absolute())`,
bump the statistics, and persist (persistence is modelled separately, in
the small-step section below). -/

def mark_processed (fm : FileManager) (v : VideoFile) (success : Bool)
    (duration processing_time : ℚ) (model_used error now : String) : FileManager :=
  let video_key := pathStr v.parts
  let output_path := get_output_path fm v.parts
  let entry : LedgerEntry :=
    { processed_at := now
      output_file := pathStr output_path
      duration := duration
      processing_time := processing_time
      model_used := model_used
      success := success
      error := if success then "" else error }
  let stats := fm.history.statistics
  let stats :=
    { stats with
      total_processed := stats.total_processed + 1
      successful := if success then stats.successful + 1 else stats.successful
      failed := if success then stats.failed else stats.failed + 1
      total_duration := stats.total_duration + duration
      total_processing_time := stats.total_processing_time + processing_time }
  { fm with
    history :=
      { processed_files := updateAssoc fm.history.processed_files video_key entry
        statistics := stats } }

/-- The arguments of one `mark_processed` call, for reasoning about
sequences of ledger updates. -/

structure MarkCall where
  video : VideoFile
  success : Bool
  duration : ℚ
  processing_time : ℚ
  model_used : String
  error : String
  now : String

/-- Applies one recorded call to the manager state. -/

def applyMarkCall (fm : FileManager) (c : MarkCall) : FileManager :=
  mark_processed fm c.video c.success c.duration c.processing_time
    c.model_used c.error c.now

/-- The statistics invariant of the ledger. -/

def statsInvariant (s : Statistics) : Prop :=
  s.total_processed = s.successful + s.failed

/-- A video file and the same file after its modification time changed. -/

def videoA : VideoFile := { parts := ["data", "in", "a.mp4"], mtime := 1 }

/-- The same path as `videoA` with a different modification time. -/

def videoA' : VideoFile := { parts := ["data", "in", "a.mp4"], mtime := 2 }

/-- A file manager over empty history, for concrete ledger scenarios. -/

def fmEmpty : FileManager :=
  { input_dir := ["data", "in"], output_dir := ["out"], history := freshHistory }

/-- The manager state after recording a successful run of `videoA`. -/

def fmAfterA : FileManager :=
  mark_processed fmEmpty videoA true 10 5 ("medium") ("") ("2024-01-01")

/-- Python's `int()` applied to a nonintegral number: truncation toward
zero, i.e. the truncating division of the numerator by the denominator. -/

def pyInt (q : ℚ) : ℤ :=
  Int.tdiv q.num (q.den : ℤ)

/-- Python's `%` on floats: `x % y = x - y * floor(x / y)` (the result
takes the sign of the divisor); the formatters use it as `seconds % 1`. -/

def pyMod (x y : ℚ) : ℚ :=
  x - y * (⌊x / y⌋ : ℤ)

/-- Zero-padding of a natural number to a minimum width. -/

def padNat (width : ℕ) (n : ℕ) : String :=
  let s := toString n
  if s.length < width then String.mk (List.replicate (width - s.length) '0') ++ s
  else s

/-- Python's zero-padded integer format `f"{n:02d}"`/`f"{n:03d}"`: the
sign occupies part of the field width and padding goes after it. -/

def padInt (width : ℕ) (n : ℤ) : String :=
  if n < 0 then "-" ++ padNat (width - 1) (-n).toNat else padNat width n.toNat

/-- `WhisperTranscriber._format_timestamp` (`src/core/transcriber.py`,
lines 387-391): `divmod(int(seconds), 3600)` then `divmod(remainder, 60)`
— Python's `divmod` is floor division, `Int.fdiv`/`Int.fmod` here — and
`HH:MM:SS` with two-digit zero padding. -/

def format_timestamp (seconds : ℚ) : String :=
  padInt 2 (Int.fdiv (pyInt seconds) 3600) ++ ":"
    ++ padInt 2 (Int.fdiv (Int.fmod (pyInt seconds) 3600) 60) ++ ":"
    ++ padInt 2 (Int.fmod (Int.fmod (pyInt seconds) 3600) 60)

/-- `WhisperTranscriber._format_timestamp_srt` (lines 393-398): the same
decomposition plus `int((seconds % 1) * 1000)` milliseconds, rendered
`HH:MM:SS,mmm`. -/

def format_timestamp_srt (seconds : ℚ) : String :=
  padInt 2 (Int.fdiv (pyInt seconds) 3600) ++ ":"
    ++ padInt 2 (Int.fdiv (Int.fmod (pyInt seconds) 3600) 60) ++ ":"
    ++ padInt 2 (Int.fmod (Int.fmod (pyInt seconds) 3600) 60) ++ ","
    ++ padInt 3 (pyInt (pyMod seconds 1 * 1000))

/-- `WhisperTranscriber._format_timestamp_vtt` (lines 400-405): as the
subtitle form but rendered `HH:MM:SS.mmm`. -/

def format_timestamp_vtt (seconds : ℚ) : String :=
  padInt 2 (Int.fdiv (pyInt seconds) 3600) ++ ":"
    ++ padInt 2 (Int.fdiv (Int.fmod (pyInt seconds) 3600) 60) ++ ":"
    ++ padInt 2 (Int.fmod (Int.fmod (pyInt seconds) 3600) 60) ++ "."
    ++ padInt 3 (pyInt (pyMod seconds 1 * 1000))

/-- The concrete timestamp of the round-trip property, built directly so
that its numerator and denominator are definitionally `14901` and `4`. -/

def timestampExample : ℚ :=
  Rat.mk' 14901 4 (by decide) (by decide)

/-- One timed segment of a transcription (`result['segments']`): start
and end seconds, text, and the per-word probabilities used for
confidence scores. -/

structure Segment where
  startSec : ℚ
  endSec : ℚ
  text : String
  words : List ℚ
deriving DecidableEq, Repr

/-- The `TranscriptionResult` dataclass (`src/core/transcriber.py`, lines
28-44), with its field defaults. -/

structure TranscriptionResult where
  text : String := ""
  segments : List Segment := []
  language : String := ""
  duration : ℚ := 0
  processing_time : ℚ := 0
  model_used : String := ""
  device_used : String := ""
  confidence_scores : List ℚ := []
deriving DecidableEq, Repr

/-- The filesystem operations `save_result`/`_save_txt` perform, in
order: create parent directories, `open(path, 'w')` (create or truncate),
sequential writes, and — found nowhere in the source, but named by the
spec — an atomic rename. -/

inductive FsOp where
  | mkdirParents (dir : PathParts)
  | openTrunc (file : PathParts)
  | writeStr (file : PathParts) (s : String)
  | rename (src : PathParts) (dst : PathParts)
deriving DecidableEq, Repr

/-- Python's `str.endswith('\n')`. -/

def endsWithNL (s : String) : Bool :=
  match s.data.getLast? with
  | some c => c = '\n'
  | none => false

/-- `WhisperTranscriber._save_txt` (`src/core/transcriber.py`, lines
322-334) as its trace of filesystem operations: open the output path for
writing (truncating), then either one line per segment (timestamped
branch) or the plain text followed by a newline when the text is
nonempty and does not already end in one. -/

def save_txt_ops (result : TranscriptionResult) (output_path : PathParts)
    (include_timestamps : Bool) : List FsOp :=
  FsOp.openTrunc output_path ::
    (if include_timestamps = true ∧ result.segments ≠ [] then
      result.segments.map (fun seg =>
        FsOp.writeStr output_path
          ("[" ++ format_timestamp seg.startSec ++ " --> "
            ++ format_timestamp seg.endSec ++ "] " ++ pyStrip seg.text ++ "\n"))
    else
      FsOp.writeStr output_path result.text ::
        (if result.text ≠ "" ∧ endsWithNL result.text = false then
          [FsOp.writeStr output_path "\n"]
        else []))

/-- `WhisperTranscriber.save_result` (`src/core/transcriber.py`, lines
294-320) in the `txt` format and with the default
`include_timestamps=False`, exactly as `process_single_file` invokes it:
`output_path.parent.mkdir(parents=True, exist_ok=True)` then
`_save_txt`. -/

def save_result_ops (result : TranscriptionResult) (output_path : PathParts) :
    List FsOp :=
  FsOp.mkdirParents output_path.dropLast :: save_txt_ops result output_path false

/-- File contents visible at each rendered path. -/

abbrev FileContents := String → Option String

/-- The empty filesystem. -/

def emptyFs : FileContents := fun _ => none

/-- Effect of one filesystem operation on the visible contents. -/

def runFsOp (st : FileContents) : FsOp → FileContents
  | .mkdirParents _ => st
  | .openTrunc p => fun q => if q = pathStr p then some "" else st q
  | .writeStr p s => fun q =>
      if q = pathStr p then
        some ((match st (pathStr p) with | some c => c | none => "") ++ s)
      else st q
  | .rename src dst => fun q =>
      if q = pathStr dst then st (pathStr src)
      else if q = pathStr src then none
      else st q

/-- Contents after a sequence of operations. -/

def runFsOps (ops : List FsOp) (st : FileContents) : FileContents :=
  ops.foldl runFsOp st

/-- Stated from the spec's words, for comparison with the source: the
serializer "writes to a temp path and atomically renames into place", so
no operation opens or writes the final output path directly. -/

def writesOnlyViaRename (ops : List FsOp) (final : PathParts) : Prop :=
  ∀ op ∈ ops, op ≠ FsOp.openTrunc final ∧ ∀ s, op ≠ FsOp.writeStr final s

/-- Stated from the spec's words: stopping after any prefix of the
operations (a failure during the write) leaves the final path either
absent or holding the complete final contents — never a truncated
file. -/

def noTruncatedVisible (ops : List FsOp) (final : PathParts) : Prop :=
  ∀ k, runFsOps (ops.take k) emptyFs (pathStr final) = none
    ∨ runFsOps (ops.take k) emptyFs (pathStr final)
        = runFsOps ops emptyFs (pathStr final)

/-- A concrete result to serialise. -/

def saveExampleResult : TranscriptionResult := { text := "hello" }

/-- A concrete output path for the serialisation scenario. -/

def saveExampleOut : PathParts := ["out", "video1.txt"]

/-- What `self.model.transcribe(...)` handed back when it returned:
the raw text, the timed segments, and the detected language when the
result dict carries one. -/

structure WhisperOutput where
  text : String
  segments : List Segment
  language : Option String
deriving DecidableEq, Repr

/-- Outcome of the call into the transcription engine
(`self.model.transcribe`): either its result dict, or the exception it
raised, carrying the exception's diagnostic text. -/

inductive EngineOutcome where
  | ok (out : WhisperOutput)
  | raises (diag : String)
deriving DecidableEq, Repr

/-- `WhisperTranscriber.transcribe` (`src/core/transcriber.py`, lines
192-292), after model load and with the audio file present: on engine
success, build the result from the dict (text stripped, language
defaulted to the requested one, duration from the last segment's end,
confidences from the word probabilities); on an engine exception, print
the diagnostic and return an empty result that carries no trace of the
diagnostic text. -/

def transcribe (model_name device language : String) (engine : EngineOutcome)
    (elapsed : ℚ) : TranscriptionResult :=
  match engine with
  | .ok out =>
      { text := pyStrip out.text
        segments := out.segments
        language := match out.language with | some l => l | none => language
        duration := match out.segments.getLast? with | some s => s.endSec | none => 0
        processing_time := elapsed
        model_used := model_name
        device_used := device
        confidence_scores := (out.segments.map (fun s => s.words)).flatten }
  | .raises _ =>
      { text := ""
        processing_time := elapsed
        model_used := model_name
        device_used := device }

/-- Everything the environment decides during one
`MP4ToTextProcessor.process_single_file` run over one video: the
validation verdict, the probed duration, the audio-extraction outcome,
the engine outcome inside `transcribe`, the serialisation outcome, and
the ambient clock values. -/

structure TaskEnv where
  video : VideoFile
  validation : Option String
  duration : ℚ
  extraction : Except String PathParts
  engine : EngineOutcome
  language : String
  saveErr : Option String
  elapsed : ℚ
  now : String
deriving Repr

/-- The processor's in-memory `self.stats` counters
(`src/mp4_to_text.py`, lines 89-98). -/

structure ProcStats where
  total_files : ℕ := 0
  processed : ℕ := 0
  successful : ℕ := 0
  failed : ℕ := 0
  skipped : ℕ := 0
  total_duration : ℚ := 0
  total_processing_time : ℚ := 0
deriving DecidableEq, Repr

/-- The state one pipeline run reads and writes: the file manager (with
the ledger) and the processor statistics. -/

structure ProcState where
  fm : FileManager
  stats : ProcStats
deriving DecidableEq, Repr

/-- The error text recorded for an empty transcription
(`src/mp4_to_text.py`, line 264). -/

def emptyResultError : String := "No text extracted from audio"

/-- Bumps `self.stats['processed']`: the `finally` block that runs on
every exit from the pipeline's `try`. -/

def bumpProcessed (st : ProcState) : ProcState :=
  { st with stats := { st.stats with processed := st.stats.processed + 1 } }

/-- `MP4ToTextProcessor.process_single_file` (`src/mp4_to_text.py`, lines
198-328), branch by branch: bail out before the `try` when shutdown was
requested; record a validation failure with default duration/time and
return; on an extraction exception take the generic `except` branch
(record the failure and bump the in-memory `failed` counter); when the
transcription text strips to empty, record `emptyResultError` and return
without bumping the in-memory `failed` counter; on a serialisation error
take the `except` branch with the re-raised message; otherwise record
success and bump the in-memory success counters.  Every path through the
`try` runs the `finally` (`bumpProcessed`). -/

def process_single_file (model_name device : String) (shutdown : Bool)
    (env : TaskEnv) (st : ProcState) : ProcState × Bool :=
  if shutdown then (st, false)
  else
    match env.validation with
    | some error_msg =>
        let fm := mark_processed st.fm env.video false 0 0 ("") error_msg env.now
        (bumpProcessed { st with fm := fm }, false)
    | none =>
      match env.extraction with
      | .error e =>
          let fm := mark_processed st.fm env.video false env.duration env.elapsed
            model_name e env.now
          let stats := { st.stats with failed := st.stats.failed + 1 }
          (bumpProcessed { fm := fm, stats := stats }, false)
      | .ok _audio =>
        let result := transcribe model_name device env.language env.engine env.elapsed
        if pyStrip result.text = "" then
          let fm := mark_processed st.fm env.video false env.duration env.elapsed
            model_name emptyResultError env.now
          (bumpProcessed { st with fm := fm }, false)
        else
          match env.saveErr with
          | some e =>
              let fm := mark_processed st.fm env.video false env.duration env.elapsed
                model_name ("Failed to save transcription result: " ++ e) env.now
              let stats := { st.stats with failed := st.stats.failed + 1 }
              (bumpProcessed { fm := fm, stats := stats }, false)
          | none =>
              let fm := mark_processed st.fm env.video true env.duration env.elapsed
                model_name ("") env.now
              let stats := { st.stats with
                successful := st.stats.successful + 1
                total_duration := st.stats.total_duration + env.duration
                total_processing_time := st.stats.total_processing_time + env.elapsed }
              (bumpProcessed { fm := fm, stats := stats }, true)

/-- `MP4ToTextProcessor._process_sequential` (`src/mp4_to_text.py`, lines
366-378) with no shutdown request: process the files in order. -/

def process_sequential (model_name device : String) (envs : List TaskEnv)
    (st : ProcState) : ProcState :=
  envs.foldl (fun st env => (process_single_file model_name device false env st).1) st

/-- A run whose transcription engine raises. -/

def engineFailEnv : TaskEnv :=
  { video := { parts := ["data", "in", "b.mp4"], mtime := 3 }
    validation := none
    duration := 60
    extraction := .ok ["tmp", "audio", "b.wav"]
    engine := .raises ("CUDA error: device-side assert triggered")
    language := "auto"
    saveErr := none
    elapsed := 9
    now := "2024-01-02" }

/-- The initial processor state over an empty ledger. -/

def stEmpty : ProcState := { fm := fmEmpty, stats := {} }

/-- Whether a run goes down the success path of `process_single_file`:
validation passes, extraction returns, the transcription text strips to
something nonempty, and serialisation succeeds. -/

def isGoodEnv (model_name device : String) (env : TaskEnv) : Bool :=
  env.validation.isNone
    && (match env.extraction with | .ok _ => true | .error _ => false)
    && !(pyStrip (transcribe model_name device env.language env.engine env.elapsed).text == "")
    && env.saveErr.isNone

/-- Runs a batch sequentially from a fresh ledger and zeroed in-memory
statistics, as a batch started with no prior history does. -/

def batchRun (model device : String) (inDir outDir : PathParts)
    (envs : List TaskEnv) : ProcState :=
  process_sequential model device envs
    { fm := { input_dir := inDir, output_dir := outDir, history := freshHistory }
      stats := {} }

/-- A run that succeeds end to end, over `a.mp4`. -/

def goodEnvA : TaskEnv :=
  { video := { parts := ["data", "in", "a.mp4"], mtime := 5 }
    validation := none
    duration := 30
    extraction := .ok ["tmp", "audio", "a.wav"]
    engine := .ok { text := "Hello there", segments := [], language := some "en" }
    language := "auto"
    saveErr := none
    elapsed := 4
    now := "2024-01-03" }

/-- A run that succeeds end to end, over `c.mp4`. -/

def goodEnvC : TaskEnv :=
  { video := { parts := ["data", "in", "c.mp4"], mtime := 8 }
    validation := none
    duration := 45
    extraction := .ok ["tmp", "audio", "c.wav"]
    engine := .ok { text := "More text", segments := [], language := some "en" }
    language := "auto"
    saveErr := none
    elapsed := 6
    now := "2024-01-03" }

/-- A zero-byte file: validation rejects it before extraction. -/

def zeroByteEnv : TaskEnv :=
  { video := { parts := ["data", "in", "zero.mp4"], mtime := 6 }
    validation := some ("File is empty: /data/in/zero.mp4")
    duration := 0
    extraction := .error ("not reached")
    engine := .raises ("not reached")
    language := "auto"
    saveErr := none
    elapsed := 1
    now := "2024-01-03" }

/-- The entry value one `mark_processed` call stores (the dict literal at
`src/core/file_manager.py`, lines 223-231). -/

def markEntry (fm : FileManager) (v : VideoFile) (success : Bool)
    (duration processing_time : ℚ) (model_used error now : String) : LedgerEntry :=
  { processed_at := now
    output_file := pathStr (get_output_path fm v.parts)
    duration := duration
    processing_time := processing_time
    model_used := model_used
    success := success
    error := if success then "" else error }

/-- One interpreter-level step of `mark_processed` on the shared
processing history.  `MP4ToTextProcessor._process_concurrent` runs
`process_single_file` — and hence `mark_processed` — from a
`ThreadPoolExecutor` with no lock around the ledger, so the CPython
interpreter may switch threads between bytecodes: in particular between
the read and the write of each `stats[...] += ...` line.  Each `load`
step reads one shared counter into a thread-local register; each `store`
step writes back the incremented register; `storeEntry` is the single
dict store of the entry; `saveHistory` persists a snapshot (no shared
in-memory effect). -/

inductive RecStep where
  | storeEntry (k : String) (en : LedgerEntry)
  | loadTotal
  | storeTotal
  | loadSuccessful
  | storeSuccessful
  | loadFailed
  | storeFailed
  | loadDuration
  | storeDuration (d : ℚ)
  | loadPtime
  | storePtime (pt : ℚ)
  | saveHistory
deriving Repr

/-- The step sequence of one `mark_processed` call (lines 219-246): store
the entry, then the read-modify-write of each statistics field touched,
then persist. -/

def recordProgram (k : String) (en : LedgerEntry) (success : Bool)
    (duration processing_time : ℚ) : List RecStep :=
  [RecStep.storeEntry k en, RecStep.loadTotal, RecStep.storeTotal]
    ++ (if success then [RecStep.loadSuccessful, RecStep.storeSuccessful]
        else [RecStep.loadFailed, RecStep.storeFailed])
    ++ [RecStep.loadDuration, RecStep.storeDuration duration,
        RecStep.loadPtime, RecStep.storePtime processing_time,
        RecStep.saveHistory]

/-- One thread: its remaining steps and its local registers (the values
most recently read from the shared counters). -/

structure ThreadSt where
  prog : List RecStep
  regN : ℕ
  regQ : ℚ

/-- Executes one step of a thread against the shared history; a thread
with no steps left does nothing. -/

def doStep (sh : History) (t : ThreadSt) : History × ThreadSt :=
  match t.prog with
  | [] => (sh, t)
  | op :: rest =>
    match op with
    | .storeEntry k en =>
        ({ sh with processed_files := updateAssoc sh.processed_files k en },
         { t with prog := rest })
    | .loadTotal =>
        (sh, { t with prog := rest, regN := sh.statistics.total_processed })
    | .storeTotal =>
        ({ sh with statistics := { sh.statistics with total_processed := t.regN + 1 } },
         { t with prog := rest })
    | .loadSuccessful =>
        (sh, { t with prog := rest, regN := sh.statistics.successful })
    | .storeSuccessful =>
        ({ sh with statistics := { sh.statistics with successful := t.regN + 1 } },
         { t with prog := rest })
    | .loadFailed =>
        (sh, { t with prog := rest, regN := sh.statistics.failed })
    | .storeFailed =>
        ({ sh with statistics := { sh.statistics with failed := t.regN + 1 } },
         { t with prog := rest })
    | .loadDuration =>
        (sh, { t with prog := rest, regQ := sh.statistics.total_duration })
    | .storeDuration d =>
        ({ sh with statistics := { sh.statistics with total_duration := t.regQ + d } },
         { t with prog := rest })
    | .loadPtime =>
        (sh, { t with prog := rest, regQ := sh.statistics.total_processing_time })
    | .storePtime pt =>
        ({ sh with
            statistics := { sh.statistics with total_processing_time := t.regQ + pt } },
         { t with prog := rest })
    | .saveHistory => (sh, { t with prog := rest })

/-- Runs two threads under a schedule: `true` steps the first thread,
`false` the second. -/

def run2 : List Bool → History → ThreadSt → ThreadSt → History × ThreadSt × ThreadSt
  | [], sh, t1, t2 => (sh, t1, t2)
  | b :: sched, sh, t1, t2 =>
      if b then
        let s := doStep sh t1
        run2 sched s.1 s.2 t2
      else
        let s := doStep sh t2
        run2 sched s.1 t1 s.2

/-- Runs one record program to completion with no other thread
interleaved (the serialized discipline the spec requires). -/

def runAlone (prog : List RecStep) (sh : History) : History :=
  (run2 (List.replicate prog.length true) sh
    { prog := prog, regN := 0, regQ := 0 }
    { prog := [], regN := 0, regQ := 0 }).1

/-- The interleaving that loses an update: thread one stores its entry
and reads `total_processed`, thread two then runs its whole call, and
thread one resumes with its stale register. -/

def lostUpdateSched : List Bool :=
  [true, true] ++ List.replicate 10 false ++ List.replicate 8 true

/-- A concrete entry recorded for `a.mp4`. -/

def entryA : LedgerEntry :=
  { processed_at := "t1", output_file := "/out/a.txt", duration := 10
    processing_time := 5, model_used := "medium", success := true, error := "" }

/-- A concrete entry recorded for `b.mp4`. -/

def entryB : LedgerEntry :=
  { processed_at := "t2", output_file := "/out/b.txt", duration := 20
    processing_time := 8, model_used := "medium", success := true, error := "" }

theorem pathLe_trans (a b c : PathParts) (hab : pathLe a b = true)
    (hbc : pathLe b c = true) : pathLe a c = true := by
  simp only [pathLe, decide_eq_true_eq] at *
  exact le_trans hab hbc

theorem pathLe_total (a b : PathParts) : (pathLe a b || pathLe b a) = true := by
  simp only [pathLe, Bool.or_eq_true, decide_eq_true_eq]
  exact le_total a b

/-- C7: Discovery (`scan_videos`) returns the candidate files sorted
(lexicographically by normalized path) and filtered by the fixed extension
allow-list matched case-insensitively; it raises a not-found error when
the input root is missing and a not-a-directory error when the input root
is a file, and it mutates no state (in the embedding it is a pure function
of the observed root: it takes no ledger or manager state and returns
none). -/
theorem scan_videos_contract (root : InputRoot) :
    (root.present = false →
      scan_videos root =
        .error (.notFound ("Input directory does not exist: " ++ pathStr root.path)))
    ∧ (root.present = true → root.isDir = false →
      scan_videos root =
        .error (.notADirectory ("Input path is not a directory: " ++ pathStr root.path)))
    ∧ (root.present = true → root.isDir = true →
      ∃ l, scan_videos root = .ok l
        ∧ l.Pairwise (fun a b => pathLe a b = true)
        ∧ l.Perm ((root.entries.filter isVideoEntry).map (fun e => e.parts))
        ∧ (∀ p, p ∈ l ↔ ∃ e, e ∈ root.entries ∧ e.parts = p ∧ e.isFile = true
            ∧ supported_formats.contains (lowerStr (pathSuffix p)) = true)) := by
  refine ⟨fun h => by simp [scan_videos, h], fun h h' => by simp [scan_videos, h, h'], ?_⟩
  intro h h'
  refine ⟨List.mergeSort ((root.entries.filter isVideoEntry).map (fun e => e.parts)) pathLe,
    by simp [scan_videos, h, h'], ?_, List.mergeSort_perm _ _, ?_⟩
  · exact List.sorted_mergeSort pathLe_trans pathLe_total _
  · intro p
    rw [(List.mergeSort_perm _ pathLe).mem_iff, List.mem_map]
    constructor
    · rintro ⟨e, he, rfl⟩
      rw [List.mem_filter] at he
      have hv := he.2
      simp only [isVideoEntry, Bool.and_eq_true] at hv
      exact ⟨e, he.1, rfl, hv.1, hv.2⟩
    · rintro ⟨e, he, rfl, hf, hs⟩
      exact ⟨e, List.mem_filter.2 ⟨he, by
        simp only [isVideoEntry, hf, Bool.true_and]; exact hs⟩, rfl⟩

/-- Witness for `scan_videos_contract`: instantiates the contract at the
concrete roots above, discharging each hypothesis. -/
theorem scan_videos_contract_witness :
    (scan_videos missingRoot =
      .error (.notFound ("Input directory does not exist: " ++ pathStr missingRoot.path)))
    ∧ ∃ l, scan_videos sampleRoot = .ok l
        ∧ l.Pairwise (fun a b => pathLe a b = true)
        ∧ l.Perm ((sampleRoot.entries.filter isVideoEntry).map (fun e => e.parts))
        ∧ (∀ p, p ∈ l ↔ ∃ e, e ∈ sampleRoot.entries ∧ e.parts = p ∧ e.isFile = true
            ∧ supported_formats.contains (lowerStr (pathSuffix p)) = true) :=
  ⟨(scan_videos_contract missingRoot).1 rfl,
   (scan_videos_contract sampleRoot).2.2 rfl rfl⟩

theorem lookup_updateAssoc_self (m : List (String × LedgerEntry)) (k : String)
    (v : LedgerEntry) : (updateAssoc m k v).lookup k = some v := by
  induction m with
  | nil => simp [updateAssoc, List.lookup, beq_self_eq_true]
  | cons p rest ih =>
      rcases p with ⟨k', v'⟩
      by_cases h : k' = k
      · subst h; simp [updateAssoc, List.lookup, beq_self_eq_true]
      · have hb : (k == k') = false := beq_eq_false_iff_ne.mpr (Ne.symm h)
        simp [updateAssoc, h, List.lookup, hb, ih]

theorem lookup_updateAssoc_ne (m : List (String × LedgerEntry)) (k k' : String)
    (v : LedgerEntry) (h : k' ≠ k) :
    (updateAssoc m k v).lookup k' = m.lookup k' := by
  have hb : (k' == k) = false := beq_eq_false_iff_ne.mpr h
  induction m with
  | nil => simp [updateAssoc, List.lookup, hb]
  | cons p rest ih =>
      rcases p with ⟨a, b⟩
      by_cases ha : a = k
      · subst ha
        simp [updateAssoc, List.lookup, hb]
      · cases hc : (k' == a) <;>
          simp [updateAssoc, ha, List.lookup, hc, ih]

/-- C1: with `skip_existing = true`, the skip check returns true iff a
prior ledger entry for the file's key exists, is marked successful, and
the output file exists with size greater than zero; in every other case
it returns false.  The second conjunct ties the checked path to the
recorded one: `mark_processed` records exactly the output path that
`is_processed` recomputes and tests. -/
theorem is_processed_skip_iff (fs : FileSys) (fm : FileManager) (v : VideoFile) :
    (is_processed fs fm v true = true ↔
      ∃ e, fm.history.processed_files.lookup (pathStr v.parts) = some e
        ∧ e.success = true
        ∧ ∃ sz, fs (pathStr (get_output_path fm v.parts)) = some sz ∧ 0 < sz)
    ∧ (∀ success d t mu er now,
        ∃ e, (mark_processed fm v success d t mu er now).history.processed_files.lookup
              (pathStr v.parts) = some e
          ∧ e.output_file = pathStr (get_output_path fm v.parts)
          ∧ e.success = success) := by
  constructor
  · cases hout : fs (pathStr (get_output_path fm v.parts)) with
    | none => simp [is_processed, hout]
    | some s0 =>
      cases hl : fm.history.processed_files.lookup (pathStr v.parts) with
      | none => simp [is_processed, hout, hl]
      | some info =>
        cases hsucc : info.success with
        | false => simp [is_processed, hout, hl, hsucc]
        | true => simp [is_processed, hout, hl, hsucc]
  · intro success d t mu er now
    exact ⟨_, lookup_updateAssoc_self _ _ _, rfl, rfl⟩

/-- C8: whatever state the persisted ledger file is in, loading returns a
history (the loader is a total function, so it never raises); a corrupt
or unreadable file — like an absent one — yields the fresh empty ledger:
empty `processed_files` mapping and all statistics zeroed. -/
theorem load_processing_history_fallback :
    (∀ msg, load_processing_history (.corrupt msg) = freshHistory)
    ∧ (∀ msg, load_processing_history (.unreadable msg) = freshHistory)
    ∧ load_processing_history .absent = freshHistory
    ∧ (∀ h, load_processing_history (.valid h) = h)
    ∧ freshHistory.processed_files = []
    ∧ freshHistory.statistics =
        { total_processed := 0, successful := 0, failed := 0
          total_duration := 0, total_processing_time := 0 } :=
  ⟨fun _ => rfl, fun _ => rfl, rfl, fun _ => rfl, rfl, rfl⟩

theorem statsInvariant_foldl (calls : List MarkCall) (fm : FileManager)
    (h : statsInvariant fm.history.statistics) :
    statsInvariant ((calls.foldl applyMarkCall fm).history.statistics) := by
  induction calls generalizing fm with
  | nil => exact h
  | cons c rest ih =>
      refine ih _ ?_
      simp only [applyMarkCall, mark_processed, statsInvariant] at h ⊢
      cases c.success <;> simp <;> omega

/-- C10: every `mark_processed` call increments `total_processed` by
exactly one and exactly one of `successful`/`failed` by one (`successful`
when the call records a success, `failed` otherwise), so
`total_processed = successful + failed` holds after any sequence of
ledger updates starting from the zeroed statistics of the fresh
history. -/
theorem mark_processed_counts :
    (∀ (fm : FileManager) (v : VideoFile) (success : Bool) (d t : ℚ)
        (mu er now : String),
      ((mark_processed fm v success d t mu er now).history.statistics.total_processed
          = fm.history.statistics.total_processed + 1)
      ∧ (success = true →
          (mark_processed fm v success d t mu er now).history.statistics.successful
              = fm.history.statistics.successful + 1
          ∧ (mark_processed fm v success d t mu er now).history.statistics.failed
              = fm.history.statistics.failed)
      ∧ (success = false →
          (mark_processed fm v success d t mu er now).history.statistics.successful
              = fm.history.statistics.successful
          ∧ (mark_processed fm v success d t mu er now).history.statistics.failed
              = fm.history.statistics.failed + 1))
    ∧ ∀ (input_dir output_dir : PathParts) (calls : List MarkCall),
        statsInvariant
          ((calls.foldl applyMarkCall
              { input_dir := input_dir, output_dir := output_dir
                history := freshHistory }).history.statistics) := by
  constructor
  · intro fm v success d t mu er now
    refine ⟨rfl, fun hs => ?_, fun hs => ?_⟩ <;> subst hs <;>
      simp [mark_processed]
  · intro input_dir output_dir calls
    exact statsInvariant_foldl calls _ rfl

/-- Witness for `mark_processed_counts`: a concrete successful call (the
`success = true` hypothesis discharged by `rfl`) and a concrete
one-element call sequence for the invariant. -/
theorem mark_processed_counts_witness :
    ((mark_processed
        { input_dir := ["data", "in"], output_dir := ["out"], history := freshHistory }
        { parts := ["data", "in", "w.mp4"], mtime := 7 } true 10 5 ("medium") ("")
        ("2024-01-01")).history.statistics.successful
      = ({ input_dir := ["data", "in"], output_dir := ["out"]
           history := freshHistory } : FileManager).history.statistics.successful + 1)
    ∧ statsInvariant
        (([({ video := { parts := ["data", "in", "w.mp4"], mtime := 7 }
              success := false, duration := 3, processing_time := 2
              model_used := "m", error := "boom", now := "t" } : MarkCall)].foldl
            applyMarkCall
            { input_dir := ["data", "in"], output_dir := ["out"]
              history := freshHistory }).history.statistics) :=
  ⟨((mark_processed_counts.1 _ _ true 10 5 ("medium") ("") ("2024-01-01")).2.1 rfl).1,
   mark_processed_counts.2 ["data", "in"] ["out"] _⟩

/-- Counterexample to C2: the ledger key does not incorporate the
modification time.  `videoA` and `videoA'` differ only in mtime, yet the
key recorded for one is found when checking the other — recording and
checking both use `str(video_path.absolute())` alone, so a changed
modification time yields the same identity, contradicting the claim. -/
theorem ledger_key_mtime_counterexample :
    videoA.mtime ≠ videoA'.mtime
    ∧ pathStr videoA.parts = pathStr videoA'.parts
    ∧ (fmAfterA.history.processed_files.lookup (pathStr videoA'.parts)).isSome = true := by
  refine ⟨?_, rfl, rfl⟩
  simp only [videoA, videoA']
  norm_num

/-- C2 as amended: ledger entries are keyed by the file's absolute path
alone; the key used when recording and the key used when checking
coincide and ignore the modification time, so an entry recorded for a
file is found for any file with the same absolute path.  (The hash that
does combine absolute path and modification time, `_get_file_hash`, is
consumed only by `get_temp_audio_path` for temp audio file names.) -/
theorem ledger_key_is_absolute_path (fm : FileManager) (v w : VideoFile)
    (success : Bool) (d t : ℚ) (mu er now : String) (hp : w.parts = v.parts) :
    ∃ e, (mark_processed fm v success d t mu er now).history.processed_files.lookup
          (pathStr w.parts) = some e
      ∧ e.success = success
      ∧ (∀ md5hex, get_file_hash md5hex v
            = md5hex (pathStr v.parts ++ "_" ++ toString v.mtime)) := by
  rw [hp]
  exact ⟨_, lookup_updateAssoc_self _ _ _, rfl, fun _ => rfl⟩

/-- Witness for `ledger_key_is_absolute_path`: instantiated at `videoA`
recorded and `videoA'` checked (paths equal, mtimes different). -/
theorem ledger_key_is_absolute_path_witness :
    ∃ e, (mark_processed fmEmpty videoA true 10 5 ("medium") ("") ("2024-01-01")
            ).history.processed_files.lookup (pathStr videoA'.parts) = some e
      ∧ e.success = true
      ∧ (∀ md5hex, get_file_hash md5hex videoA
            = md5hex (pathStr videoA.parts ++ "_" ++ toString videoA.mtime)) :=
  ledger_key_is_absolute_path fmEmpty videoA videoA' true 10 5 ("medium") ("")
    ("2024-01-01") rfl

theorem pyInt_eq_floor (q : ℚ) (hq : 0 ≤ q) : pyInt q = ⌊q⌋ := by
  rw [pyInt, Int.tdiv_eq_ediv (Rat.num_nonneg.mpr hq) (Int.ofNat_nonneg _),
    Rat.floor_def]

theorem pyMod_one_eq_fract (q : ℚ) : pyMod q 1 = Int.fract q := by
  rw [pyMod, div_one, one_mul, Int.self_sub_floor]

theorem pyInt_ms_eq_floor (q : ℚ) :
    pyInt (pyMod q 1 * 1000) = ⌊Int.fract q * 1000⌋ := by
  rw [pyMod_one_eq_fract,
    pyInt_eq_floor _ (mul_nonneg (Int.fract_nonneg q) (by norm_num))]

/-- C9: for every nonnegative number of seconds, hours, minutes and
seconds come from truncating to whole seconds (the floor, for
nonnegative input) and milliseconds from the fractional remainder, in
each of the three formats; at 3725.25 seconds the three formatters
produce exactly `01:02:05`, `01:02:05,250` and `01:02:05.250`. -/
theorem timestamp_formats (q : ℚ) (hq : 0 ≤ q) :
    (format_timestamp q
        = padInt 2 (⌊q⌋ / 3600) ++ ":" ++ padInt 2 (⌊q⌋ % 3600 / 60) ++ ":"
            ++ padInt 2 (⌊q⌋ % 3600 % 60)
      ∧ format_timestamp_srt q
          = padInt 2 (⌊q⌋ / 3600) ++ ":" ++ padInt 2 (⌊q⌋ % 3600 / 60) ++ ":"
              ++ padInt 2 (⌊q⌋ % 3600 % 60) ++ ","
              ++ padInt 3 ⌊Int.fract q * 1000⌋
      ∧ format_timestamp_vtt q
          = padInt 2 (⌊q⌋ / 3600) ++ ":" ++ padInt 2 (⌊q⌋ % 3600 / 60) ++ ":"
              ++ padInt 2 (⌊q⌋ % 3600 % 60) ++ "."
              ++ padInt 3 ⌊Int.fract q * 1000⌋)
    ∧ timestampExample = (3725.25 : ℚ)
    ∧ format_timestamp timestampExample = "01:02:05"
    ∧ format_timestamp_srt timestampExample = "01:02:05,250"
    ∧ format_timestamp_vtt timestampExample = "01:02:05.250" := by
  have hfdiv : ∀ a : ℤ, Int.fdiv a 3600 = a / 3600 :=
    fun a => Int.fdiv_eq_ediv a (by norm_num)
  have hfdiv60 : ∀ a : ℤ, Int.fdiv a 60 = a / 60 :=
    fun a => Int.fdiv_eq_ediv a (by norm_num)
  have hfmod : ∀ a : ℤ, Int.fmod a 3600 = a % 3600 :=
    fun a => Int.fmod_eq_emod a (by norm_num)
  have hfmod60 : ∀ a : ℤ, Int.fmod a 60 = a % 60 :=
    fun a => Int.fmod_eq_emod a (by norm_num)
  have hq0 : timestampExample = (3725.25 : ℚ) := by
    rw [show (3725.25 : ℚ) = (14901 : ℚ)/4 by norm_num]
    refine Rat.ext ?_ ?_ <;> norm_num [timestampExample]
  have hfloor0 : ⌊timestampExample⌋ = 3725 := by
    rw [Rat.floor_def]; decide
  have hint0 : pyInt timestampExample = 3725 := by decide
  have hms0 : pyInt (pyMod timestampExample 1 * 1000) = 250 := by
    have h1 : pyMod timestampExample 1 = 1/4 := by
      rw [pyMod_one_eq_fract, Int.fract, hfloor0, hq0]
      norm_num
    rw [h1, show ((1 : ℚ)/4 * 1000) = 250 by norm_num, pyInt,
      show ((250 : ℚ)).num = 250 by norm_num,
      show ((250 : ℚ)).den = 1 by norm_num]
    decide
  refine ⟨⟨?_, ?_, ?_⟩, hq0, ?_, ?_, ?_⟩
  · rw [format_timestamp, pyInt_eq_floor q hq, hfdiv, hfmod, hfdiv60, hfmod60]
  · rw [format_timestamp_srt, pyInt_eq_floor q hq, hfdiv, hfmod, hfdiv60,
      hfmod60, pyInt_ms_eq_floor]
  · rw [format_timestamp_vtt, pyInt_eq_floor q hq, hfdiv, hfmod, hfdiv60,
      hfmod60, pyInt_ms_eq_floor]
  · rw [format_timestamp, hint0]; decide
  · rw [format_timestamp_srt, hint0, hms0]; decide
  · rw [format_timestamp_vtt, hint0, hms0]; decide

/-- Witness for `timestamp_formats`: instantiated at 3725.25 itself, the
nonnegativity hypothesis discharged concretely. -/
theorem timestamp_formats_witness :
    (0 : ℚ) ≤ timestampExample
    ∧ (format_timestamp timestampExample = "01:02:05"
      ∧ format_timestamp_srt timestampExample = "01:02:05,250"
      ∧ format_timestamp_vtt timestampExample = "01:02:05.250") :=
  have h : (0 : ℚ) ≤ timestampExample := by
    rw [show timestampExample = (3725.25 : ℚ) from (timestamp_formats 0 le_rfl).2.1]
    norm_num
  ⟨h, (timestamp_formats timestampExample h).2.2⟩

/-- Counterexample to C3: `save_result` does not write through a temp
path and rename; it opens the final output path directly, and stopping
after the truncating open (a failure during the write) leaves an empty —
truncated — file visible at the final output path, where the completed
write leaves `"hello\n"`. -/
theorem save_result_not_atomic_counterexample :
    ¬ writesOnlyViaRename (save_result_ops saveExampleResult saveExampleOut)
        saveExampleOut
    ∧ ¬ noTruncatedVisible (save_result_ops saveExampleResult saveExampleOut)
        saveExampleOut := by
  constructor
  · intro h
    exact (h (FsOp.openTrunc saveExampleOut) (by decide)).1 rfl
  · intro h
    rcases h 2 with h' | h' <;> exact absurd h' (by decide)

/-- C3 as amended: for any result with nonempty text, serialising opens
the final output path directly (no rename appears in the trace), a
failure between the truncating open and the completed writes leaves an
empty file visible at the final path, and the completed trace leaves the
nonempty contents there — so a mid-write failure can expose a truncated
output file. -/
theorem save_result_writes_directly (result : TranscriptionResult)
    (out : PathParts) (hne : result.text ≠ "") :
    FsOp.openTrunc out ∈ save_result_ops result out
    ∧ (∀ op ∈ save_result_ops result out, ∀ src dst, op ≠ FsOp.rename src dst)
    ∧ runFsOps ((save_result_ops result out).take 2) emptyFs (pathStr out) = some ""
    ∧ ∃ full, runFsOps (save_result_ops result out) emptyFs (pathStr out) = some full
        ∧ full ≠ "" := by
  refine ⟨by simp [save_result_ops, save_txt_ops], ?_, ?_, ?_⟩
  · intro op hop src dst
    simp only [save_result_ops, save_txt_ops, List.mem_cons] at hop
    rcases hop with rfl | rfl | hop
    · simp
    · simp
    · split at hop
      · rcases List.mem_map.1 hop with ⟨seg, _, rfl⟩
        simp
      · rcases List.mem_cons.1 hop with rfl | hop
        · simp
        · split at hop
          · rcases List.mem_cons.1 hop with rfl | hop
            · simp
            · simp at hop
          · simp at hop
  · simp [save_result_ops, save_txt_ops, runFsOps, runFsOp, List.take]
  · by_cases hNL : endsWithNL result.text = false
    · refine ⟨result.text ++ "\n", ?_, ?_⟩
      · simp [save_result_ops, save_txt_ops, hne, hNL, runFsOps, runFsOp]
      · intro hc
        have := congrArg String.data hc
        simp at this
    · refine ⟨result.text, ?_, hne⟩
      simp [save_result_ops, save_txt_ops, hne, hNL, runFsOps, runFsOp]

/-- Witness for `save_result_writes_directly`: instantiated at the
concrete result with text `"hello"`. -/
theorem save_result_writes_directly_witness :
    FsOp.openTrunc saveExampleOut ∈ save_result_ops saveExampleResult saveExampleOut
    ∧ (∀ op ∈ save_result_ops saveExampleResult saveExampleOut,
        ∀ src dst, op ≠ FsOp.rename src dst)
    ∧ runFsOps ((save_result_ops saveExampleResult saveExampleOut).take 2) emptyFs
        (pathStr saveExampleOut) = some ""
    ∧ ∃ full, runFsOps (save_result_ops saveExampleResult saveExampleOut) emptyFs
          (pathStr saveExampleOut) = some full
        ∧ full ≠ "" :=
  save_result_writes_directly saveExampleResult saveExampleOut (by decide)

/-- Counterexample to C4: a run in which the transcription engine itself
fails is not recorded as a hard engine failure with its diagnostic text —
`transcribe` swallows the exception into an empty result, and the ledger
receives the generic empty-result error instead. -/
theorem engine_failure_recording_counterexample :
    ((process_single_file ("medium") ("cpu") false engineFailEnv stEmpty).1.fm.history.processed_files.lookup
        (pathStr engineFailEnv.video.parts)).map (fun e => (e.success, e.error))
      = some (false, emptyResultError)
    ∧ emptyResultError ≠ ("CUDA error: device-side assert triggered") := by
  exact ⟨rfl, by decide⟩

/-- C4 as amended: an exception raised by the transcription engine is
caught inside `transcribe`, which returns an empty result; the pipeline
then records the run with the generic empty-result error text and
`success = false` — indistinguishable in the ledger from a genuine empty
transcription, the engine's diagnostic appearing nowhere in the record. -/
theorem engine_failure_recorded_as_empty (model device : String) (env : TaskEnv)
    (st : ProcState) (diag : String) (hval : env.validation = none)
    (hex : ∃ p, env.extraction = Except.ok p)
    (heng : env.engine = .raises diag) :
    ((process_single_file model device false env st).1.fm.history.processed_files.lookup
        (pathStr env.video.parts)).map (fun e => (e.success, e.error))
      = some (false, emptyResultError) := by
  rcases hex with ⟨p, hp⟩
  have htext : pyStrip (transcribe model device env.language env.engine env.elapsed).text
      = "" := by
    rw [heng]; rfl
  simp [process_single_file, hval, hp, htext, bumpProcessed, mark_processed,
    lookup_updateAssoc_self]

/-- Witness for `engine_failure_recorded_as_empty`: the concrete
engine-failure run above. -/
theorem engine_failure_recorded_as_empty_witness :
    ((process_single_file ("medium") ("cpu") false engineFailEnv stEmpty).1.fm.history.processed_files.lookup
        (pathStr engineFailEnv.video.parts)).map (fun e => (e.success, e.error))
      = some (false, emptyResultError) :=
  engine_failure_recorded_as_empty ("medium") ("cpu") engineFailEnv stEmpty
    ("CUDA error: device-side assert triggered") rfl ⟨["tmp", "audio", "b.wav"], rfl⟩ rfl

theorem good_step (model device : String) (env : TaskEnv) (st : ProcState)
    (h : isGoodEnv model device env = true) :
    process_single_file model device false env st =
      ({ fm := mark_processed st.fm env.video true env.duration env.elapsed
            model ("") env.now
         stats := { st.stats with
           processed := st.stats.processed + 1
           successful := st.stats.successful + 1
           total_duration := st.stats.total_duration + env.duration
           total_processing_time := st.stats.total_processing_time + env.elapsed } },
       true) := by
  rcases hv : env.validation with _ | msg
  · rcases hx : env.extraction with e | p
    · simp [isGoodEnv, hv, hx] at h
    · rcases hs : env.saveErr with _ | e
      · have htext :
            ¬ pyStrip (transcribe model device env.language env.engine env.elapsed).text
              = "" := by
          simp only [isGoodEnv, hv, hx, hs, Option.isNone_none, Bool.true_and,
            Bool.and_true, Bool.not_eq_true', beq_eq_false_iff_ne] at h
          exact h
        simp [process_single_file, hv, hx, hs, htext, bumpProcessed]
      · simp [isGoodEnv, hv, hx, hs] at h
  · simp [isGoodEnv, hv] at h

theorem valfail_step (model device : String) (env : TaskEnv) (st : ProcState)
    (msg : String) (h : env.validation = some msg) :
    process_single_file model device false env st =
      ({ fm := mark_processed st.fm env.video false 0 0 ("") msg env.now
         stats := { st.stats with processed := st.stats.processed + 1 } },
       false) := by
  simp [process_single_file, h, bumpProcessed]

theorem valfail_not_good (model device : String) (env : TaskEnv) (msg : String)
    (h : env.validation = some msg) : isGoodEnv model device env = false := by
  simp [isGoodEnv, h]

theorem single_file_pf_update (model device : String) (env : TaskEnv) (st : ProcState) :
    ∃ en, (process_single_file model device false env st).1.fm.history.processed_files
        = updateAssoc st.fm.history.processed_files (pathStr env.video.parts) en := by
  rcases hv : env.validation with _ | msg
  · rcases hx : env.extraction with e | p
    · exact ⟨_, by simp [process_single_file, hv, hx, mark_processed, bumpProcessed]; rfl⟩
    · by_cases htext :
        pyStrip (transcribe model device env.language env.engine env.elapsed).text = ""
      · exact ⟨_, by simp [process_single_file, hv, hx, htext, mark_processed,
          bumpProcessed]; rfl⟩
      · rcases hs : env.saveErr with _ | e
        · exact ⟨_, by simp [process_single_file, hv, hx, htext, hs, mark_processed,
            bumpProcessed]; rfl⟩
        · exact ⟨_, by simp [process_single_file, hv, hx, htext, hs, mark_processed,
            bumpProcessed]; rfl⟩
  · exact ⟨_, by simp [process_single_file, hv, mark_processed, bumpProcessed]; rfl⟩

theorem seq_lookup_preserved (model device : String) (envs : List TaskEnv)
    (st : ProcState) (k : String) (hk : ∀ e ∈ envs, k ≠ pathStr e.video.parts) :
    (process_sequential model device envs st).fm.history.processed_files.lookup k
      = st.fm.history.processed_files.lookup k := by
  induction envs generalizing st with
  | nil => rfl
  | cons e rest ih =>
      rcases single_file_pf_update model device e st with ⟨en, hen⟩
      rw [show process_sequential model device (e :: rest) st
          = process_sequential model device rest
              ((process_single_file model device false e st).1) from rfl,
        ih _ (fun x hx => hk x (List.mem_cons_of_mem _ hx)), hen,
        lookup_updateAssoc_ne _ _ _ _ (hk e (List.mem_cons_self _ _))]

theorem seq_stats (model device : String) (envs : List TaskEnv) (st : ProcState)
    (hcls : ∀ e ∈ envs,
      isGoodEnv model device e = true ∨ ∃ msg, e.validation = some msg) :
    ((process_sequential model device envs st).fm.history.statistics.successful
        = st.fm.history.statistics.successful + envs.countP (isGoodEnv model device))
    ∧ ((process_sequential model device envs st).fm.history.statistics.failed
        = st.fm.history.statistics.failed
            + envs.countP (fun e => !(isGoodEnv model device e)))
    ∧ ((process_sequential model device envs st).fm.history.statistics.total_processed
        = st.fm.history.statistics.total_processed + envs.length)
    ∧ ((process_sequential model device envs st).stats.processed
        = st.stats.processed + envs.length)
    ∧ ((process_sequential model device envs st).stats.successful
        = st.stats.successful + envs.countP (isGoodEnv model device)) := by
  induction envs generalizing st with
  | nil => simp [process_sequential]
  | cons e rest ih =>
      have hcr : ∀ x ∈ rest,
          isGoodEnv model device x = true ∨ ∃ msg, x.validation = some msg :=
        fun x hx => hcls x (List.mem_cons_of_mem _ hx)
      have hseq : process_sequential model device (e :: rest) st
          = process_sequential model device rest
              ((process_single_file model device false e st).1) := rfl
      rcases hcls e (List.mem_cons_self _ _) with hg | ⟨msg, hv⟩
      · rcases ih ((process_single_file model device false e st).1) hcr with
          ⟨i1, i2, i3, i4, i5⟩
        rw [good_step model device e st hg] at i1 i2 i3 i4 i5
        rw [hseq, good_step model device e st hg]
        simp only [mark_processed, if_pos rfl] at i1 i2 i3 ⊢
        rw [good_step model device e st hg] at hseq
        refine ⟨?_, ?_, ?_, ?_, ?_⟩ <;>
          simp_all [List.countP_cons, hg, mark_processed] <;> omega
      · have hgf := valfail_not_good model device e msg hv
        rcases ih ((process_single_file model device false e st).1) hcr with
          ⟨i1, i2, i3, i4, i5⟩
        rw [valfail_step model device e st msg hv] at i1 i2 i3 i4 i5
        rw [hseq, valfail_step model device e st msg hv]
        refine ⟨?_, ?_, ?_, ?_, ?_⟩ <;>
          simp_all [List.countP_cons, hgf, mark_processed] <;> omega

theorem seq_lookup_stable (model device : String) (envs : List TaskEnv)
    (st : ProcState) (e : TaskEnv) (he : e ∈ envs)
    (hkeys : (envs.map (fun x => pathStr x.video.parts)).Nodup)
    {α : Type} (pr : LedgerEntry → α) (a : α)
    (hstep : ∀ st' : ProcState,
      (((process_single_file model device false e st').1.fm.history.processed_files.lookup
          (pathStr e.video.parts)).map pr) = some a) :
    (((process_sequential model device envs st).fm.history.processed_files.lookup
        (pathStr e.video.parts)).map pr) = some a := by
  induction envs generalizing st with
  | nil => cases he
  | cons x rest ih =>
      have hkr : (rest.map (fun y => pathStr y.video.parts)).Nodup :=
        (List.nodup_cons.1 hkeys).2
      rcases List.mem_cons.1 he with rfl | hmem
      · have hnotin : pathStr e.video.parts ∉ rest.map (fun y => pathStr y.video.parts) :=
          (List.nodup_cons.1 hkeys).1
        rw [show process_sequential model device (e :: rest) st
            = process_sequential model device rest
                ((process_single_file model device false e st).1) from rfl,
          seq_lookup_preserved model device rest _ _
            (fun y hy heq => hnotin (by rw [heq]; exact List.mem_map_of_mem _ hy))]
        exact hstep st
      · exact ih _ hmem hkr

/-- C5: in a batch where exactly one file fails validation and every
other file processes successfully, the failing file is recorded in the
ledger with the validation error text and `success = false`; the
ledger's statistics exclude it from `successful` (which counts exactly
the other files) and include it in `failed` (which counts exactly one);
the batch completes — the processed counter covers every file — and
every remaining valid file is recorded successfully.  The in-memory
run counters also exclude it from `successful`. -/
theorem validation_failure_batch (model device : String) (inDir outDir : PathParts)
    (pre post : List TaskEnv) (bad : TaskEnv) (msg : String)
    (hbad : bad.validation = some msg)
    (hgood : ∀ e ∈ pre ++ post, isGoodEnv model device e = true)
    (hkeys : ((pre ++ bad :: post).map (fun e => pathStr e.video.parts)).Nodup) :
    (((batchRun model device inDir outDir (pre ++ bad :: post)).fm.history.processed_files.lookup
        (pathStr bad.video.parts)).map (fun en => (en.success, en.error))
      = some (false, msg))
    ∧ (batchRun model device inDir outDir (pre ++ bad :: post)).fm.history.statistics.successful
        = pre.length + post.length
    ∧ (batchRun model device inDir outDir (pre ++ bad :: post)).fm.history.statistics.failed = 1
    ∧ (batchRun model device inDir outDir (pre ++ bad :: post)).fm.history.statistics.total_processed
        = pre.length + post.length + 1
    ∧ (∀ e ∈ pre ++ post,
        (((batchRun model device inDir outDir (pre ++ bad :: post)).fm.history.processed_files.lookup
            (pathStr e.video.parts)).map (fun en => (en.success, en.error)))
          = some (true, ""))
    ∧ (batchRun model device inDir outDir (pre ++ bad :: post)).stats.processed
        = pre.length + post.length + 1
    ∧ (batchRun model device inDir outDir (pre ++ bad :: post)).stats.successful
        = pre.length + post.length := by
  have hcls : ∀ e ∈ pre ++ bad :: post,
      isGoodEnv model device e = true ∨ ∃ m, e.validation = some m := by
    intro e he
    rcases List.mem_append.1 he with hp | hq
    · exact Or.inl (hgood e (List.mem_append_left _ hp))
    · rcases List.mem_cons.1 hq with rfl | hq'
      · exact Or.inr ⟨msg, hbad⟩
      · exact Or.inl (hgood e (List.mem_append_right _ hq'))
  have hcgood : (pre ++ bad :: post).countP (isGoodEnv model device)
      = pre.length + post.length := by
    rw [List.countP_append, List.countP_cons,
      List.countP_eq_length.mpr (fun e he => hgood e (List.mem_append_left _ he)),
      List.countP_eq_length.mpr (fun e he => hgood e (List.mem_append_right _ he)),
      valfail_not_good model device bad msg hbad]
    simp
  have hcbad : (pre ++ bad :: post).countP (fun e => !(isGoodEnv model device e)) = 1 := by
    rw [List.countP_append, List.countP_cons,
      valfail_not_good model device bad msg hbad]
    have h0 : ∀ (l : List TaskEnv), (∀ e ∈ l, isGoodEnv model device e = true) →
        l.countP (fun e => !(isGoodEnv model device e)) = 0 := by
      intro l hl
      rw [List.countP_eq_zero]
      intro e he
      simp [hl e he]
    rw [h0 pre (fun e he => hgood e (List.mem_append_left _ he)),
      h0 post (fun e he => hgood e (List.mem_append_right _ he))]
    simp
  have hlen : (pre ++ bad :: post).length = pre.length + post.length + 1 := by
    simp [List.length_append]
    omega
  obtain ⟨s1, s2, s3, s4, s5⟩ := seq_stats model device (pre ++ bad :: post)
    { fm := { input_dir := inDir, output_dir := outDir, history := freshHistory }
      stats := {} } hcls
  refine ⟨?_, ?_, ?_, ?_, ?_, ?_, ?_⟩
  · refine seq_lookup_stable model device _ _ bad
      (List.mem_append_right _ (List.mem_cons_self _ _)) hkeys _ _ ?_
    intro st'
    rw [valfail_step model device bad st' msg hbad]
    simp [mark_processed, lookup_updateAssoc_self]
  · rw [batchRun] at *
    rw [s1, hcgood]
    simp [freshHistory]
  · rw [batchRun] at *
    rw [s2, hcbad]
    simp [freshHistory]
  · rw [batchRun] at *
    rw [s3, hlen]
    simp [freshHistory]
  · intro e he
    have hge := hgood e he
    have hmem : e ∈ pre ++ bad :: post := by
      rcases List.mem_append.1 he with hp | hq
      · exact List.mem_append_left _ hp
      · exact List.mem_append_right _ (List.mem_cons_of_mem _ hq)
    refine seq_lookup_stable model device _ _ e hmem hkeys _ _ ?_
    intro st'
    rw [good_step model device e st' hge]
    simp [mark_processed, lookup_updateAssoc_self]
  · rw [batchRun] at *
    rw [s4, hlen]
    simp
  · rw [batchRun] at *
    rw [s5, hcgood]
    simp

/-- Witness for `validation_failure_batch`: the three-file batch
`[a.mp4, zero.mp4, c.mp4]` with the zero-byte file in the middle; every
hypothesis is discharged by computation. -/
theorem validation_failure_batch_witness :
    (((batchRun ("medium") ("cpu") ["data", "in"] ["out"]
        ([goodEnvA] ++ zeroByteEnv :: [goodEnvC])).fm.history.processed_files.lookup
        (pathStr zeroByteEnv.video.parts)).map (fun en => (en.success, en.error))
      = some (false, "File is empty: /data/in/zero.mp4"))
    ∧ (batchRun ("medium") ("cpu") ["data", "in"] ["out"]
        ([goodEnvA] ++ zeroByteEnv :: [goodEnvC])).fm.history.statistics.successful
        = [goodEnvA].length + [goodEnvC].length
    ∧ (batchRun ("medium") ("cpu") ["data", "in"] ["out"]
        ([goodEnvA] ++ zeroByteEnv :: [goodEnvC])).fm.history.statistics.failed = 1
    ∧ (batchRun ("medium") ("cpu") ["data", "in"] ["out"]
        ([goodEnvA] ++ zeroByteEnv :: [goodEnvC])).fm.history.statistics.total_processed
        = [goodEnvA].length + [goodEnvC].length + 1
    ∧ (∀ e ∈ [goodEnvA] ++ [goodEnvC],
        (((batchRun ("medium") ("cpu") ["data", "in"] ["out"]
            ([goodEnvA] ++ zeroByteEnv :: [goodEnvC])).fm.history.processed_files.lookup
            (pathStr e.video.parts)).map (fun en => (en.success, en.error)))
          = some (true, ""))
    ∧ (batchRun ("medium") ("cpu") ["data", "in"] ["out"]
        ([goodEnvA] ++ zeroByteEnv :: [goodEnvC])).stats.processed
        = [goodEnvA].length + [goodEnvC].length + 1
    ∧ (batchRun ("medium") ("cpu") ["data", "in"] ["out"]
        ([goodEnvA] ++ zeroByteEnv :: [goodEnvC])).stats.successful
        = [goodEnvA].length + [goodEnvC].length :=
  validation_failure_batch ("medium") ("cpu") ["data", "in"] ["out"]
    [goodEnvA] [goodEnvC] zeroByteEnv ("File is empty: /data/in/zero.mp4")
    rfl (by decide) (by decide)

/-- Counterexample to C6: the unsynchronized `mark_processed` steps admit
an interleaving of two completed record calls that loses one
`total_processed` increment — the final ledger says one file was
processed after two completions (a serialized execution says two) — so
concurrent callers do not serialize and lost updates are possible. -/
theorem mark_processed_lost_update_counterexample :
    ((run2 lostUpdateSched freshHistory
        { prog := recordProgram ("/data/in/a.mp4") entryA true 10 5, regN := 0, regQ := 0 }
        { prog := recordProgram ("/data/in/b.mp4") entryB true 20 8, regN := 0, regQ := 0 }).1.statistics.total_processed
      = 1)
    ∧ (runAlone (recordProgram ("/data/in/b.mp4") entryB true 20 8)
        (runAlone (recordProgram ("/data/in/a.mp4") entryA true 10 5)
          freshHistory)).statistics.total_processed = 2
    ∧ ((run2 lostUpdateSched freshHistory
        { prog := recordProgram ("/data/in/a.mp4") entryA true 10 5, regN := 0, regQ := 0 }
        { prog := recordProgram ("/data/in/b.mp4") entryB true 20 8, regN := 0, regQ := 0 }).1.processed_files.lookup
        ("/data/in/a.mp4")).isSome = true
    ∧ ((run2 lostUpdateSched freshHistory
        { prog := recordProgram ("/data/in/a.mp4") entryA true 10 5, regN := 0, regQ := 0 }
        { prog := recordProgram ("/data/in/b.mp4") entryB true 20 8, regN := 0, regQ := 0 }).1.processed_files.lookup
        ("/data/in/b.mp4")).isSome = true := by
  refine ⟨rfl, rfl, rfl, rfl⟩

/-- C6 as amended: `mark_processed` runs with no serialization primitive,
so while any serialized (queued) execution of two record calls adds
exactly two to `total_processed`, the interpreter may interleave the
read-modify-write steps of the two calls and lose one increment; the two
entry stores themselves are single atomic dict writes, so both ledger
entries are present either way.  Running a record program alone is
exactly `mark_processed`. -/
theorem mark_processed_not_serialized (sh : History) (k1 k2 : String)
    (e1 e2 : LedgerEntry) (d1 pt1 d2 pt2 : ℚ) (hk : k1 ≠ k2) :
    ((runAlone (recordProgram k2 e2 true d2 pt2)
        (runAlone (recordProgram k1 e1 true d1 pt1) sh)).statistics.total_processed
      = sh.statistics.total_processed + 2)
    ∧ ((run2 lostUpdateSched sh
        { prog := recordProgram k1 e1 true d1 pt1, regN := 0, regQ := 0 }
        { prog := recordProgram k2 e2 true d2 pt2, regN := 0, regQ := 0 }).1.statistics.total_processed
      = sh.statistics.total_processed + 1)
    ∧ ((run2 lostUpdateSched sh
        { prog := recordProgram k1 e1 true d1 pt1, regN := 0, regQ := 0 }
        { prog := recordProgram k2 e2 true d2 pt2, regN := 0, regQ := 0 }).1.processed_files.lookup k1
      = some e1)
    ∧ ((run2 lostUpdateSched sh
        { prog := recordProgram k1 e1 true d1 pt1, regN := 0, regQ := 0 }
        { prog := recordProgram k2 e2 true d2 pt2, regN := 0, regQ := 0 }).1.processed_files.lookup k2
      = some e2)
    ∧ (∀ (fm : FileManager) (v : VideoFile) (success : Bool) (d pt : ℚ)
          (mu er now : String),
        runAlone (recordProgram (pathStr v.parts)
            (markEntry fm v success d pt mu er now) success d pt) fm.history
          = (mark_processed fm v success d pt mu er now).history) := by
  refine ⟨?_, ?_, ?_, ?_, ?_⟩
  · simp [runAlone, recordProgram, run2, doStep]
  · simp [lostUpdateSched, recordProgram, run2, doStep]
  · simp [lostUpdateSched, recordProgram, run2, doStep]
    rw [lookup_updateAssoc_ne _ _ _ _ hk, lookup_updateAssoc_self]
  · simp [lostUpdateSched, recordProgram, run2, doStep]
    rw [lookup_updateAssoc_self]
  · intro fm v success d pt mu er now
    cases success <;> rfl

/-- Witness for `mark_processed_not_serialized`: the two concrete record
calls above, from the fresh history, with distinct keys. -/
theorem mark_processed_not_serialized_witness :
    ((runAlone (recordProgram ("/data/in/b.mp4") entryB true 20 8)
        (runAlone (recordProgram ("/data/in/a.mp4") entryA true 10 5)
          freshHistory)).statistics.total_processed
      = freshHistory.statistics.total_processed + 2)
    ∧ ((run2 lostUpdateSched freshHistory
        { prog := recordProgram ("/data/in/a.mp4") entryA true 10 5, regN := 0, regQ := 0 }
        { prog := recordProgram ("/data/in/b.mp4") entryB true 20 8, regN := 0, regQ := 0 }).1.statistics.total_processed
      = freshHistory.statistics.total_processed + 1)
    ∧ ((run2 lostUpdateSched freshHistory
        { prog := recordProgram ("/data/in/a.mp4") entryA true 10 5, regN := 0, regQ := 0 }
        { prog := recordProgram ("/data/in/b.mp4") entryB true 20 8, regN := 0, regQ := 0 }).1.processed_files.lookup
        ("/data/in/a.mp4") = some entryA)
    ∧ ((run2 lostUpdateSched freshHistory
        { prog := recordProgram ("/data/in/a.mp4") entryA true 10 5, regN := 0, regQ := 0 }
        { prog := recordProgram ("/data/in/b.mp4") entryB true 20 8, regN := 0, regQ := 0 }).1.processed_files.lookup
        ("/data/in/b.mp4") = some entryB)
    ∧ (∀ (fm : FileManager) (v : VideoFile) (success : Bool) (d pt : ℚ)
          (mu er now : String),
        runAlone (recordProgram (pathStr v.parts)
            (markEntry fm v success d pt mu er now) success d pt) fm.history
          = (mark_processed fm v success d pt mu er now).history) :=
  mark_processed_not_serialized freshHistory ("/data/in/a.mp4") ("/data/in/b.mp4")
    entryA entryB 10 5 20 8 (by decide)

end Video2Text
